import Mathlib

/-!
# couchstore: a shallow embedding of the document-store wrapper

The development embeds `couchstore/main.go`: the reflection driven slice
collector `GetDocuments`, the single document read `GetDocument`, the
`DeleteDocument` method and the spatial view query `ExecuteSpatialQuery`.

The database client library is an external collaborator.  It is represented by
records of functions (what a query issue answers, what one `Next` call does to
the cursor and to the slot it is handed).  Calls into the library are written
to a trace so that statements about "how often" and "in which order" can be
made about the wrapper itself.
-/

namespace Couchstore

/-! ## Go values as far as the wrapper inspects them -/

/-- The kinds of `reflect.Kind` that the wrapper can be handed. -/
inductive Kind
  | Invalid
  | Int
  | String
  | Struct
  | Map
  | Slice
  | Ptr
  deriving DecidableEq, Repr

/-- A Go slice value: `nil` is the slice whose data pointer is nil, and
`mk elems spare` is a slice header over a backing array, where `elems` are the
`len` visible elements and `spare` are the array cells between `len` and
`cap`. -/
inductive GoSlice (E : Type)
  | nil
  | mk (elems : List E) (spare : List E)
  deriving DecidableEq, Repr

/-- What an `interface{}` argument can hold.  `nilInterface` also stands for
the zero `reflect.Value`, whose kind is `Invalid`. -/
inductive GoValue (E : Type)
  | nilInterface
  | int (n : Int)
  | str (s : String)
  | strct (fields : List (String × String))
  | mapping (entries : List (String × String))
  | slice (s : GoSlice E)
  | nilPtr
  | ptr (target : GoValue E)
  deriving DecidableEq, Repr

/-- Values of the Go `error` type produced by the client library.  The field
`keyNotFound` is `some b` when the dynamic type has a method
`KeyNotFound() bool` answering `b`, and `none` when it has no such method. -/
structure GoError where
  text : String
  keyNotFound : Option Bool
  deriving DecidableEq, Repr

/-- The value built by `errors.Wrap(err, message)` for a non-nil `err`. -/
structure WrappedError where
  cause : GoError
  message : String
  deriving DecidableEq, Repr

/-- One call into the client library. -/
inductive Event (T : Type)
  | get (key : String)
  | query
  | next (arg : T) (ok : Bool) (out : T)
  | close
  deriving DecidableEq, Repr

/-- How a Go call ends: by a panic or by returning. -/
inductive Outcome (α : Type)
  | panic (msg : String)
  | returned (a : α)
  deriving DecidableEq, Repr

/-- The observable end state of a call that takes a `result` argument: how it
ended, what `result` holds afterwards, and the library calls made. -/
structure Final (E : Type) where
  outcome : Outcome (Option WrappedError)
  result : GoValue E
  trace : List (Event E)
  deriving DecidableEq, Repr

/-- What the Go runtime contributes for an element type: its zero value and
the number of surplus cells `append` allocates (beyond the one it needs) when
it has to move a slice of a given capacity to a new backing array. -/
structure Runtime (E : Type) where
  zero : E
  surplus : Nat → Nat

/-- The N1QL face of `gocb.Bucket`: issuing a query gives an error or a result
set in state `σ`; `Next` takes the result set and the current content of the
slot it is pointed at and answers whether a row was decoded, the new state of
the result set and the new content of the slot. -/
structure N1qlBucket (Q σ E : Type) where
  ExecuteN1qlQuery : Q → Except GoError σ
  Next : σ → E → Bool × σ × E

/-- The key/value face of `gocb.Bucket`: `Get key valuePtr` answers the new
content of the value handed in and the error, if any. -/
structure KVBucket (E : Type) where
  Get : String → GoValue E → GoValue E × Option GoError

variable {E Q σ : Type}

/-! ## reflect and slice primitives -/

/-- Model of `reflect.Value.Kind` after `reflect.ValueOf`. -/
def GoValue.Kind : GoValue E → Kind
  | .nilInterface => .Invalid
  | .int _ => .Int
  | .str _ => .String
  | .strct _ => .Struct
  | .mapping _ => .Map
  | .slice _ => .Slice
  | .nilPtr => .Ptr
  | .ptr _ => .Ptr

/-- Model of `reflect.Value.Elem` on a pointer: the pointee, or the zero Value
for a nil pointer. -/
def GoValue.Elem : GoValue E → GoValue E
  | .ptr t => t
  | _ => .nilInterface

/-- Model of `len`. -/
def GoSlice.Len : GoSlice E → Nat
  | .nil => 0
  | .mk elems _ => elems.length

/-- Model of `cap`. -/
def GoSlice.Cap : GoSlice E → Nat
  | .nil => 0
  | .mk elems spare => elems.length + spare.length

/-- The visible elements of a slice. -/
def GoSlice.toList : GoSlice E → List E
  | .nil => []
  | .mk elems _ => elems

/-- Whether the slice is the nil slice. -/
def GoSlice.isNil : GoSlice E → Bool
  | .nil => true
  | .mk _ _ => false

/-- The cells of the backing array that the slice can reach, up to `cap`. -/
def GoSlice.cells : GoSlice E → List E
  | .nil => []
  | .mk elems spare => elems ++ spare

/-- Model of `reflect.Value.Slice(i, j)` on a slice: panics unless
`i ≤ j ≤ cap`; the data pointer of a nil slice stays nil. -/
def GoSlice.Slice (s : GoSlice E) (i j : Nat) : Except String (GoSlice E) :=
  if j < i ∨ s.Cap < j then
    .error "reflect.Value.Slice: slice index out of bounds"
  else
    match s with
    | .nil => .ok .nil
    | .mk elems spare =>
      .ok (.mk (((elems ++ spare).take j).drop i) ((elems ++ spare).drop j))

/-- Model of `reflect.Value.Index(i)` on a slice: panics unless `i < len`. -/
def GoSlice.Index (s : GoSlice E) (i : Nat) : Except String E :=
  match s.toList.get? i with
  | some e => .ok e
  | none => .error "reflect: slice index out of range"

/-- A store through `Index(i).Addr()`. -/
def GoSlice.store (s : GoSlice E) (i : Nat) (v : E) : GoSlice E :=
  match s with
  | .nil => .nil
  | .mk elems spare => .mk (elems.set i v) spare

/-- Model of `append(s, x)` and `reflect.Append(s, x)`: the element goes into
the next spare cell when there is one, otherwise the elements move to a new
backing array whose surplus cells hold the zero value. -/
def GoSlice.Append (rt : Runtime E) (s : GoSlice E) (x : E) : GoSlice E :=
  match s with
  | .nil => .mk [x] (List.replicate (rt.surplus 0) rt.zero)
  | .mk elems [] => .mk (elems ++ [x]) (List.replicate (rt.surplus elems.length) rt.zero)
  | .mk elems (_ :: spare) => .mk (elems ++ [x]) spare

/-- Model of `errors.Wrap(err, message)` for a non-nil `err`. -/
def errorsWrap (err : GoError) (message : String) : WrappedError :=
  ⟨err, message⟩

/-! ## GetDocuments -/

/-- The `for` loop of `GetDocuments` (main.go lines 127 to 141).  The state is
the result set, `slicev`, `i` and the trace; `none` means the fuel ran out,
`some (.panic _, _)` that a reflect call panicked, and
`some (.returned (slicev, i), tr)` that the loop was left by `break`. -/
def GetDocumentsLoop (rt : Runtime E) (db : N1qlBucket Q σ E) :
    Nat → σ → GoSlice E → Nat → List (Event E) →
      Option (Outcome (GoSlice E × Nat) × List (Event E))
  | 0, _, _, _, _ => none
  | fuel + 1, resultSet, slicev, i, tr =>
    if slicev.Len = i then
      -- elemp := reflect.New(elemt)
      match db.Next resultSet rt.zero with
      | (false, _, out) => some (.returned (slicev, i), tr ++ [.next rt.zero false out])
      | (true, resultSet1, out) =>
        let slicev1 := GoSlice.Append rt slicev out
        match slicev1.Slice 0 slicev1.Cap with
        | .error msg => some (.panic msg, tr ++ [.next rt.zero true out])
        | .ok slicev2 =>
          GetDocumentsLoop rt db fuel resultSet1 slicev2 (i + 1) (tr ++ [.next rt.zero true out])
    else
      match slicev.Index i with
      | .error msg => some (.panic msg, tr)
      | .ok cur =>
        match db.Next resultSet cur with
        | (false, _, out) =>
          some (.returned (slicev.store i out, i), tr ++ [.next cur false out])
        | (true, resultSet1, out) =>
          GetDocumentsLoop rt db fuel resultSet1 (slicev.store i out) (i + 1)
            (tr ++ [.next cur true out])

/-- Model of `DBServer.GetDocuments` (main.go lines 106 to 145).  The deferred
`resultSet.Close()` is run on every exit after the query was issued, also on
a panic.  `fuel` bounds the number of loop iterations. -/
def GetDocuments (rt : Runtime E) (db : N1qlBucket Q σ E) (fuel : Nat) (query : Q)
    (result : GoValue E) : Option (Final E) :=
  if result.Kind ≠ Kind.Ptr ∨ result.Elem.Kind ≠ Kind.Slice then
    some ⟨.panic "result argument must be a slice address", result, []⟩
  else
    match db.ExecuteN1qlQuery query with
    | .error err =>
      some ⟨.returned (some (errorsWrap err "bucket.ExecuteN1q1Query")), result, [.query]⟩
    | .ok resultSet =>
      match result.Elem with
      | .slice d =>
        match d.Slice 0 d.Cap with
        | .error msg => some ⟨.panic msg, result, [.query, .close]⟩
        | .ok slicev =>
          match GetDocumentsLoop rt db fuel resultSet slicev 0 [.query] with
          | none => none
          | some (.panic msg, tr) => some ⟨.panic msg, result, tr ++ [.close]⟩
          | some (.returned (slicev1, i), tr) =>
            match slicev1.Slice 0 i with
            | .error msg => some ⟨.panic msg, result, tr ++ [.close]⟩
            | .ok d1 => some ⟨.returned none, .ptr (.slice d1), tr ++ [.close]⟩
      | _ =>
        some ⟨.panic "reflect: call of reflect.Value.Slice on a Value that is no slice",
          result, [.query, .close]⟩

/-! ## GetDocument -/

/-- Model of `gocbKeyNotFound` (main.go lines 38 to 44): the type assertion
`err.(gocbError)` succeeds exactly when the error has the method. -/
def gocbKeyNotFound (err : GoError) : Bool :=
  match err.keyNotFound with
  | some se => se
  | none => false

/-- Model of `DBServer.GetDocument` (main.go lines 85 to 102). -/
def GetDocument (db : KVBucket E) (key : String) (result : GoValue E) : Final E :=
  if result.Kind ≠ Kind.Ptr then
    ⟨.panic "result argument must be an address", result, []⟩
  else
    match db.Get key result with
    | (result1, some err) =>
      if gocbKeyNotFound err then
        ⟨.returned none, result1, [.get key]⟩
      else
        ⟨.returned (some (errorsWrap err "bucket.Get")), result1, [.get key]⟩
    | (result1, none) => ⟨.returned none, result1, [.get key]⟩

/-! ## DeleteDocument -/

/-- The documents of the bucket behind a `DBServer`, by key. -/
abbrev Store := List (String × String)

/-- Model of `DBServer.DeleteDocument` (main.go lines 160 to 162): the body
is `return nil`, so the bucket is handed back as it was together with a nil
error. -/
def DeleteDocument (store : Store) (_key : String) : Store × Option WrappedError :=
  (store, none)

/-! ## ExecuteSpatialQuery -/

/-- Model of the struct `SpatialDocument` (main.go lines 205 to 208); the
`interface{}` field is `none` when nil, and `G` stands for `geojson.Geometry`. -/
structure SpatialDocument (J G : Type) where
  Value : Option J
  Geometry : G
  deriving DecidableEq, Repr

/-- Model of the struct `spatialViewResult` (main.go lines 198 to 202). -/
structure spatialViewResult (J G : Type) where
  Key : Option J
  ID : String
  SpatialDocument : SpatialDocument J G
  deriving DecidableEq, Repr

/-- The value built by `gocb.NewSpatialQuery(design, view).Bbox(bounds)`. -/
structure SpatialQuery (F : Type) where
  design : String
  view : String
  bbox : List F
  deriving DecidableEq, Repr

/-- The spatial view face of `gocb.Bucket`. -/
structure SpatialBucket (F σ J G : Type) where
  ExecuteSpatialQuery : SpatialQuery F → Except GoError σ
  Next : σ → spatialViewResult J G → Bool × σ × spatialViewResult J G

/-- What the Go runtime contributes to `ExecuteSpatialQuery`: the zero value of
`geojson.Geometry` and the growth of `append`. -/
structure SpatialRuntime (G : Type) where
  zeroGeometry : G
  surplus : Nat → Nat

/-- The observable end state of `ExecuteSpatialQuery`: the two return values
and the library calls made. -/
structure SpatialFinal (J G : Type) where
  documents : GoSlice (SpatialDocument J G)
  err : Option WrappedError
  trace : List (Event (spatialViewResult J G))
  deriving DecidableEq, Repr

variable {F J G : Type}

/-- The runtime of the element type `SpatialDocument`. -/
def SpatialRuntime.docs (rt : SpatialRuntime G) : Runtime (SpatialDocument J G) :=
  ⟨⟨none, rt.zeroGeometry⟩, rt.surplus⟩

/-- The zero value of `var document spatialViewResult`. -/
def SpatialRuntime.zeroResult (rt : SpatialRuntime G) : spatialViewResult J G :=
  ⟨none, "", ⟨none, rt.zeroGeometry⟩⟩

/-- The loop `for resultSet.Next(&document)` of `ExecuteSpatialQuery`
(main.go lines 187 to 192); `none` means the fuel ran out. -/
def ExecuteSpatialQueryLoop (rt : SpatialRuntime G) (db : SpatialBucket F σ J G) :
    Nat → σ → spatialViewResult J G → GoSlice (SpatialDocument J G) →
      List (Event (spatialViewResult J G)) →
      Option (GoSlice (SpatialDocument J G) × List (Event (spatialViewResult J G)))
  | 0, _, _, _, _ => none
  | fuel + 1, resultSet, document, documents, tr =>
    match db.Next resultSet document with
    | (false, _, out) => some (documents, tr ++ [.next document false out])
    | (true, resultSet1, out) =>
      -- d := document.SpatialDocument
      ExecuteSpatialQueryLoop rt db fuel resultSet1 out
        (GoSlice.Append rt.docs documents out.SpatialDocument)
        (tr ++ [.next document true out])

/-- Model of `DBServer.ExecuteSpatialQuery` (main.go lines 170 to 195). -/
def ExecuteSpatialQuery (rt : SpatialRuntime G) (db : SpatialBucket F σ J G) (fuel : Nat)
    (design view : String) (bounds : List F) : Option (SpatialFinal J G) :=
  match db.ExecuteSpatialQuery ⟨design, view, bounds⟩ with
  | .error err => some ⟨.nil, some (errorsWrap err "bucket.ExecuteSpatialQuery"), [.query]⟩
  | .ok resultSet =>
    match ExecuteSpatialQueryLoop rt db fuel resultSet rt.zeroResult (.mk [] []) [.query] with
    | none => none
    | some (documents, tr) => some ⟨documents, none, tr ++ [.close]⟩

/-! ## Specification vocabulary -/

section Vocabulary

variable {T : Type}

/-- A result set in state `s` answers `true` to exactly `n` calls of `Next`
and `false` to the call after them, whatever slots it is handed.  Nothing is
said about calls after the first `false`. -/
def Yields (next : σ → T → Bool × σ × T) : Nat → σ → Prop
  | 0, s => ∀ e, (next s e).1 = false
  | n + 1, s => ∀ e, (next s e).1 = true ∧ Yields next n (next s e).2.1

/-- The first `m` calls `(slot before, answer, slot after)` of `Next` when the
`j`-th call is pointed at the `j`-th cell of `slots`, or at a zero value once
`slots` is used up, and no call follows an answer `false`. -/
def calls (next : σ → T → Bool × σ × T) (zero : T) : Nat → σ → List T → List (T × Bool × T)
  | 0, _, _ => []
  | m + 1, s, slots =>
    match next s (slots.headD zero) with
    | (false, _, out) => [(slots.headD zero, false, out)]
    | (true, s1, out) => (slots.headD zero, true, out) :: calls next zero m s1 slots.tail

/-- The trace entry of a call of `Next`. -/
def Event.ofCall (c : T × Bool × T) : Event T :=
  .next c.1 c.2.1 c.2.2

/-- The calls of `Next` in a trace, in order. -/
def nextCalls : List (Event T) → List (T × Bool × T)
  | [] => []
  | .next arg ok out :: es => (arg, ok, out) :: nextCalls es
  | .get _ :: es => nextCalls es
  | .query :: es => nextCalls es
  | .close :: es => nextCalls es

/-- Whether a trace entry is a call of `Close`. -/
def Event.isClose : Event T → Bool
  | .close => true
  | _ => false

/-- Whether a trace entry is a query issue. -/
def Event.isQuery : Event T → Bool
  | .query => true
  | _ => false

/-- The value `Next` leaves in the slot on a `true` answer, and the state it
moves the result set to, do not depend on what the slot held before: a row
that decodes replaces the slot.  Nothing is asked of the slot after a `false`
answer, which a result set may leave as it found it. -/
def OverwritesSlot (next : σ → T → Bool × σ × T) : Prop :=
  ∀ s e1 e2, (next s e1).2.1 = (next s e2).2.1 ∧
    ((next s e1).1 = true → (next s e1).2.2 = (next s e2).2.2)

end Vocabulary

/-- A result set over a script of rows: `some r` decodes to `r` and overwrites
the slot, `none` is a row that fails to decode.  The query is its own canned
answer. -/
def scriptBucket : N1qlBucket (Except GoError (List (Option Nat))) (List (Option Nat)) Nat where
  ExecuteN1qlQuery := fun q => q
  Next := fun rows slot =>
    match rows with
    | [] => (false, [], slot)
    | none :: rest => (false, rest, slot)
    | some r :: rest => (true, rest, r)

/-- A result set whose rows only set the first field of a two field element
and leave the second as they find it, the way a JSON row without that field
is decoded into a struct. -/
def mergeBucket : N1qlBucket (List Nat) (List Nat) (Nat × Nat) where
  ExecuteN1qlQuery := fun q => .ok q
  Next := fun rows slot =>
    match rows with
    | [] => (false, [], slot)
    | r :: rest => (true, rest, (r, slot.2))

/-- A runtime for `Nat` elements whose `append` doubles the capacity. -/
def natRuntime : Runtime Nat :=
  ⟨0, fun c => c - 1⟩

/-- A runtime for pairs whose `append` doubles the capacity. -/
def pairRuntime : Runtime (Nat × Nat) :=
  ⟨(0, 0), fun c => c - 1⟩

/-- A key/value bucket holding one document under the key `sg:005050`; other
keys give a key-not-found error, and the key `down` a network error. -/
def sampleKV : KVBucket Nat where
  Get := fun key v =>
    if key = "sg:005050" then (.ptr (.str "store 005050"), none)
    else if key = "down" then (v, some ⟨"network failure", none⟩)
    else (v, some ⟨"key not found", some true⟩)

section Lemmas

variable {T : Type}

theorem headD_replicate (k : Nat) (z : T) : (List.replicate k z).headD z = z := by
  cases k <;> rfl

theorem tail_replicate_eq (k : Nat) (z : T) :
    (List.replicate k z).tail = List.replicate (k - 1) z := by
  cases k <;> rfl

theorem calls_false (next : σ → T → Bool × σ × T) (zero : T) (m : Nat) (s s1 : σ)
    (slots : List T) (out : T) (h : next s (slots.headD zero) = (false, s1, out)) :
    calls next zero (m + 1) s slots = [(slots.headD zero, false, out)] := by
  simp only [calls, h]

theorem calls_true (next : σ → T → Bool × σ × T) (zero : T) (m : Nat) (s s1 : σ)
    (slots : List T) (out : T) (h : next s (slots.headD zero) = (true, s1, out)) :
    calls next zero (m + 1) s slots
      = (slots.headD zero, true, out) :: calls next zero m s1 slots.tail := by
  simp only [calls, h]

theorem calls_replicate (next : σ → T → Bool × σ × T) (zero : T) :
    ∀ (m : Nat) (s : σ) (k : Nat),
      calls next zero m s (List.replicate k zero) = calls next zero m s [] := by
  intro m
  induction m with
  | zero => intro s k; rfl
  | succ m ih =>
    intro s k
    rcases hx : next s zero with ⟨ok, s1, out⟩
    cases ok
    · rw [calls_false next zero m s s1 _ out (by rw [headD_replicate]; exact hx),
        calls_false next zero m s s1 [] out hx, headD_replicate]
      rfl
    · rw [calls_true next zero m s s1 _ out (by rw [headD_replicate]; exact hx),
        calls_true next zero m s s1 [] out hx, headD_replicate, tail_replicate_eq, ih]
      rfl

theorem calls_answers (next : σ → T → Bool × σ × T) (zero : T) :
    ∀ (n : Nat) (s : σ) (slots : List T), Yields next n s →
      (calls next zero (n + 1) s slots).map (fun c => c.2.1) = List.replicate n true ++ [false] := by
  intro n
  induction n with
  | zero =>
    intro s slots hy
    have h := hy (slots.headD zero)
    rcases hx : next s (slots.headD zero) with ⟨ok, s1, out⟩
    rw [hx] at h
    simp only at h
    subst h
    rw [calls_false next zero 0 s s1 slots out hx]
    rfl
  | succ n ih =>
    intro s slots hy
    have h := hy (slots.headD zero)
    rcases hx : next s (slots.headD zero) with ⟨ok, s1, out⟩
    rw [hx] at h
    simp only at h
    obtain ⟨h1, h2⟩ := h
    subst h1
    rw [calls_true next zero (n + 1) s s1 slots out hx, List.map_cons, ih s1 slots.tail h2]
    rfl

theorem calls_length (next : σ → T → Bool × σ × T) (zero : T)
    (n : Nat) (s : σ) (slots : List T) (hy : Yields next n s) :
    (calls next zero (n + 1) s slots).length = n + 1 := by
  have h := congrArg List.length (calls_answers next zero n s slots hy)
  simpa using h

theorem nextCalls_append (xs ys : List (Event T)) :
    nextCalls (xs ++ ys) = nextCalls xs ++ nextCalls ys := by
  induction xs with
  | nil => rfl
  | cons x xs ih => cases x <;> simp [nextCalls, ih]

theorem nextCalls_map_ofCall (cs : List (T × Bool × T)) :
    nextCalls (cs.map Event.ofCall) = cs := by
  induction cs with
  | nil => rfl
  | cons c cs ih => simp [nextCalls, Event.ofCall, ih]

theorem filter_isClose_map_ofCall (cs : List (T × Bool × T)) :
    (cs.map Event.ofCall).filter Event.isClose = [] := by
  induction cs with
  | nil => rfl
  | cons c cs ih => simp [Event.ofCall, Event.isClose, ih]

end Lemmas

/-! ## The loop of GetDocuments on a result set that stops -/

theorem loop_fresh_false (rt : Runtime E) (db : N1qlBucket Q σ E) (fuel : Nat) (s s1 : σ)
    (slicev : GoSlice E) (i : Nat) (tr : List (Event E)) (out : E)
    (hl : slicev.Len = i) (h : db.Next s rt.zero = (false, s1, out)) :
    GetDocumentsLoop rt db (fuel + 1) s slicev i tr
      = some (.returned (slicev, i), tr ++ [.next rt.zero false out]) := by
  simp only [GetDocumentsLoop, hl, if_true, h]

theorem loop_fresh_true (rt : Runtime E) (db : N1qlBucket Q σ E) (fuel : Nat) (s s1 : σ)
    (slicev slicev2 : GoSlice E) (i : Nat) (tr : List (Event E)) (out : E)
    (hl : slicev.Len = i) (h : db.Next s rt.zero = (true, s1, out))
    (h2 : (GoSlice.Append rt slicev out).Slice 0 (GoSlice.Append rt slicev out).Cap
      = .ok slicev2) :
    GetDocumentsLoop rt db (fuel + 1) s slicev i tr
      = GetDocumentsLoop rt db fuel s1 slicev2 (i + 1) (tr ++ [.next rt.zero true out]) := by
  simp only [GetDocumentsLoop, hl, if_true, h, h2]

theorem loop_slot_false (rt : Runtime E) (db : N1qlBucket Q σ E) (fuel : Nat) (s s1 : σ)
    (slicev : GoSlice E) (i : Nat) (tr : List (Event E)) (cur out : E)
    (hl : slicev.Len ≠ i) (hc : slicev.Index i = .ok cur)
    (h : db.Next s cur = (false, s1, out)) :
    GetDocumentsLoop rt db (fuel + 1) s slicev i tr
      = some (.returned (slicev.store i out, i), tr ++ [.next cur false out]) := by
  simp only [GetDocumentsLoop, hl, if_false, hc, h]

theorem loop_slot_true (rt : Runtime E) (db : N1qlBucket Q σ E) (fuel : Nat) (s s1 : σ)
    (slicev : GoSlice E) (i : Nat) (tr : List (Event E)) (cur out : E)
    (hl : slicev.Len ≠ i) (hc : slicev.Index i = .ok cur)
    (h : db.Next s cur = (true, s1, out)) :
    GetDocumentsLoop rt db (fuel + 1) s slicev i tr
      = GetDocumentsLoop rt db fuel s1 (slicev.store i out) (i + 1)
          (tr ++ [.next cur true out]) := by
  simp only [GetDocumentsLoop, hl, if_false, hc, h]

theorem mk_Len_ne (pre : List E) (r : E) (rest : List E) :
    (GoSlice.mk (pre ++ r :: rest) []).Len ≠ pre.length := by
  simp [GoSlice.Len]

theorem mk_Index (pre : List E) (r : E) (rest : List E) :
    (GoSlice.mk (pre ++ r :: rest) []).Index pre.length = .ok r := by
  have h : (pre ++ r :: rest).get? pre.length = some r := by
    induction pre with
    | nil => rfl
    | cons p pre ih => simpa using ih
  simp only [GoSlice.Index, GoSlice.toList, h]

theorem mk_store (pre : List E) (r out : E) (rest : List E) :
    (GoSlice.mk (pre ++ r :: rest) []).store pre.length out
      = GoSlice.mk ((pre ++ [out]) ++ rest) [] := by
  simp [GoSlice.store]

theorem mk_Append_Slice (rt : Runtime E) (pre : List E) (out : E) :
    (GoSlice.Append rt (.mk pre []) out).Slice 0 (GoSlice.Append rt (.mk pre []) out).Cap
      = .ok (.mk ((pre ++ [out]) ++ List.replicate (rt.surplus pre.length) rt.zero) []) := by
  simp [GoSlice.Append, GoSlice.Slice, GoSlice.Cap]
  omega

theorem nil_Append_Slice (rt : Runtime E) (out : E) :
    (GoSlice.Append rt .nil out).Slice 0 (GoSlice.Append rt .nil out).Cap
      = .ok (.mk (([] ++ [out]) ++ List.replicate (rt.surplus 0) rt.zero) []) := by
  simp [GoSlice.Append, GoSlice.Slice, GoSlice.Cap]
  omega

theorem GetDocumentsLoop_mk (rt : Runtime E) (db : N1qlBucket Q σ E) :
    ∀ (n : Nat) (s : σ) (pre rest : List E) (tr : List (Event E)) (fuel : Nat),
      Yields db.Next n s → n < fuel →
      ∃ sl1 d1,
        GetDocumentsLoop rt db fuel s (.mk (pre ++ rest) []) pre.length tr
          = some (.returned (sl1, pre.length + n),
              tr ++ (calls db.Next rt.zero (n + 1) s rest).map Event.ofCall) ∧
        sl1.Slice 0 (pre.length + n) = .ok d1 ∧
        d1.toList = pre ++ ((calls db.Next rt.zero (n + 1) s rest).take n).map (fun c => c.2.2) ∧
        d1.isNil = false := by
  intro n
  induction n with
  | zero =>
    intro s pre rest tr fuel hy hf
    obtain ⟨fuel, rfl⟩ : ∃ f, fuel = f + 1 := ⟨fuel - 1, by omega⟩
    cases rest with
    | nil =>
      have h := hy rt.zero
      rcases hx : db.Next s rt.zero with ⟨ok, s1, out⟩
      rw [hx] at h
      simp only at h
      subst h
      refine ⟨.mk pre [], .mk pre [], ?_, ?_, ?_, rfl⟩
      · simp only [List.append_nil]
        rw [loop_fresh_false rt db fuel s s1 (.mk pre []) pre.length tr out rfl hx,
          calls_false db.Next rt.zero 0 s s1 [] out hx]
        rfl
      · simp [GoSlice.Slice, GoSlice.Cap]
      · simp [GoSlice.toList]
    | cons r rest =>
      have h := hy r
      rcases hx : db.Next s r with ⟨ok, s1, out⟩
      rw [hx] at h
      simp only at h
      subst h
      refine ⟨.mk ((pre ++ [out]) ++ rest) [], .mk pre (out :: rest), ?_, ?_, ?_, rfl⟩
      · rw [loop_slot_false rt db fuel s s1 _ _ tr r out (mk_Len_ne pre r rest)
          (mk_Index pre r rest) hx, calls_false db.Next rt.zero 0 s s1 (r :: rest) out hx,
          mk_store]
        rfl
      · simp [GoSlice.Slice, GoSlice.Cap]
      · simp [GoSlice.toList]
  | succ n ih =>
    intro s pre rest tr fuel hy hf
    obtain ⟨fuel, rfl⟩ : ∃ f, fuel = f + 1 := ⟨fuel - 1, by omega⟩
    have hf1 : n < fuel := by omega
    have hlen : (pre ++ [(rt.zero)]).length = pre.length + 1 := by simp
    cases rest with
    | nil =>
      have h := hy rt.zero
      rcases hx : db.Next s rt.zero with ⟨ok, s1, out⟩
      rw [hx] at h
      simp only at h
      obtain ⟨h1, h2⟩ := h
      subst h1
      obtain ⟨sl1, d1, e1, e2, e3, e4⟩ :=
        ih s1 (pre ++ [out]) (List.replicate (rt.surplus pre.length) rt.zero)
          (tr ++ [.next rt.zero true out]) fuel h2 hf1
      rw [calls_replicate] at e1 e3
      have hl : (pre ++ [out]).length + n = pre.length + (n + 1) := by
        simp only [List.length_append, List.length_singleton]; omega
      have hl1 : (pre ++ [out]).length = pre.length + 1 := by simp
      rw [hl] at e1 e2
      rw [hl1] at e1
      refine ⟨sl1, d1, ?_, e2, ?_, e4⟩
      · simp only [List.append_nil]
        rw [loop_fresh_true rt db fuel s s1 (.mk pre []) _ pre.length tr out rfl hx
          (mk_Append_Slice rt pre out), e1,
          calls_true db.Next rt.zero (n + 1) s s1 [] out hx]
        simp [Event.ofCall]
      · rw [e3, calls_true db.Next rt.zero (n + 1) s s1 [] out hx]
        simp
    | cons r rest =>
      have h := hy r
      rcases hx : db.Next s r with ⟨ok, s1, out⟩
      rw [hx] at h
      simp only at h
      obtain ⟨h1, h2⟩ := h
      subst h1
      obtain ⟨sl1, d1, e1, e2, e3, e4⟩ :=
        ih s1 (pre ++ [out]) rest (tr ++ [.next r true out]) fuel h2 hf1
      have hl : (pre ++ [out]).length + n = pre.length + (n + 1) := by
        simp only [List.length_append, List.length_singleton]; omega
      have hl1 : (pre ++ [out]).length = pre.length + 1 := by simp
      rw [hl] at e1 e2
      rw [hl1] at e1
      refine ⟨sl1, d1, ?_, e2, ?_, e4⟩
      · rw [loop_slot_true rt db fuel s s1 _ _ tr r out (mk_Len_ne pre r rest)
          (mk_Index pre r rest) hx, mk_store, e1,
          calls_true db.Next rt.zero (n + 1) s s1 (r :: rest) out hx]
        simp [Event.ofCall]
      · rw [e3, calls_true db.Next rt.zero (n + 1) s s1 (r :: rest) out hx]
        simp

/-- What `GetDocuments` does on a pointer to a slice when the query issue
succeeds and the result set stops after `n` rows: it returns nil, the calls of
`Next` are those of `calls` on the cells of the destination, and the
destination ends up holding the slot contents after the first `n` calls. -/
theorem GetDocuments_run (rt : Runtime E) (db : N1qlBucket Q σ E) (fuel : Nat) (q : Q)
    (D : GoSlice E) (s0 : σ) (n : Nat)
    (hq : db.ExecuteN1qlQuery q = .ok s0) (hy : Yields db.Next n s0) (hf : n < fuel) :
    ∃ d1,
      GetDocuments rt db fuel q (.ptr (.slice D))
        = some ⟨.returned none, .ptr (.slice d1),
            [.query] ++ (calls db.Next rt.zero (n + 1) s0 D.cells).map Event.ofCall
              ++ [.close]⟩ ∧
      d1.toList = ((calls db.Next rt.zero (n + 1) s0 D.cells).take n).map (fun c => c.2.2) ∧
      d1.isNil = (D.isNil && decide (n = 0)) := by
  cases D with
  | mk elems spare =>
    obtain ⟨sl1, d1, e1, e2, e3, e4⟩ :=
      GetDocumentsLoop_mk rt db n s0 [] (elems ++ spare) [.query] fuel hy hf
    simp only [List.length_nil, Nat.zero_add, List.nil_append] at e1 e2 e3
    refine ⟨d1, ?_, ?_, ?_⟩
    · have hs : (GoSlice.mk elems spare).Slice 0 (GoSlice.mk elems spare).Cap
          = .ok (.mk (elems ++ spare) []) := by
        simp [GoSlice.Slice, GoSlice.Cap]
      simp only [GetDocuments, GoValue.Kind, GoValue.Elem, ne_eq, not_true_eq_false, or_self,
        if_false, hq, hs, e1, e2, GoSlice.cells]
    · simpa [GoSlice.cells] using e3
    · rw [e4]; rfl
  | nil =>
    obtain ⟨fuel, rfl⟩ : ∃ f, fuel = f + 1 := ⟨fuel - 1, by omega⟩
    have hs : (GoSlice.nil : GoSlice E).Slice 0 (GoSlice.nil : GoSlice E).Cap = .ok .nil := by
      simp [GoSlice.Slice, GoSlice.Cap]
    cases n with
    | zero =>
      have h := hy rt.zero
      rcases hx : db.Next s0 rt.zero with ⟨ok, s1, out⟩
      rw [hx] at h
      simp only at h
      subst h
      refine ⟨.nil, ?_, ?_, ?_⟩
      · have hs0 : (GoSlice.nil : GoSlice E).Slice 0 0 = .ok .nil := by
          simp [GoSlice.Slice, GoSlice.Cap]
        simp only [GetDocuments, GoValue.Kind, GoValue.Elem, ne_eq, not_true_eq_false, or_self,
          if_false, hq, hs,
          loop_fresh_false rt db fuel s0 s1 .nil 0 [.query] out rfl hx, hs0, GoSlice.cells,
          calls_false db.Next rt.zero 0 s0 s1 [] out hx]
        rfl
      · simp [GoSlice.toList]
      · simp [GoSlice.isNil]
    | succ n =>
      have h := hy rt.zero
      rcases hx : db.Next s0 rt.zero with ⟨ok, s1, out⟩
      rw [hx] at h
      simp only at h
      obtain ⟨h1, h2⟩ := h
      subst h1
      obtain ⟨sl1, d1, e1, e2, e3, e4⟩ :=
        GetDocumentsLoop_mk rt db n s1 [out] (List.replicate (rt.surplus 0) rt.zero)
          [.query, .next rt.zero true out] fuel h2 (by omega)
      rw [calls_replicate] at e1 e3
      have hl : [out].length + n = n + 1 := by simp; omega
      rw [hl] at e1 e2
      refine ⟨d1, ?_, ?_, ?_⟩
      · have e1b := e1
        simp only [List.length_singleton] at e1b
        simp only [GetDocuments, GoValue.Kind, GoValue.Elem, ne_eq, not_true_eq_false, or_self,
          if_false, hq, hs,
          loop_fresh_true rt db fuel s0 s1 .nil _ 0 [.query] out rfl hx (nil_Append_Slice rt out),
          GoSlice.cells, calls_true db.Next rt.zero (n + 1) s0 s1 [] out hx]
        simp only [List.nil_append, List.singleton_append, Nat.zero_add] at e1b ⊢
        rw [e1b]
        simp [e2, Event.ofCall]
      · rw [e3, GoSlice.cells, calls_true db.Next rt.zero (n + 1) s0 s1 [] out hx]
        simp
      · rw [e4]; rfl

theorem calls_args {T : Type} (next : σ → T → Bool × σ × T) (zero : T) :
    ∀ (n : Nat) (s : σ) (slots : List T), Yields next n s →
      (calls next zero (n + 1) s slots).map (fun c => c.1)
        = (slots ++ List.replicate (n + 1) zero).take (n + 1) := by
  intro n
  induction n with
  | zero =>
    intro s slots hy
    have h := hy (slots.headD zero)
    rcases hx : next s (slots.headD zero) with ⟨ok, s1, out⟩
    rw [hx] at h
    simp only at h
    subst h
    rw [calls_false next zero 0 s s1 slots out hx]
    cases slots <;> rfl
  | succ n ih =>
    intro s slots hy
    have h := hy (slots.headD zero)
    rcases hx : next s (slots.headD zero) with ⟨ok, s1, out⟩
    rw [hx] at h
    simp only at h
    obtain ⟨h1, h2⟩ := h
    subst h1
    rw [calls_true next zero (n + 1) s s1 slots out hx, List.map_cons, ih s1 slots.tail h2]
    cases slots with
    | nil => simp [List.replicate_succ]
    | cons a rest =>
      simp only [List.headD_cons, List.tail_cons, List.cons_append, List.take_succ_cons,
        List.cons.injEq, true_and]
      rw [List.take_append_eq_append_take, List.take_append_eq_append_take]
      simp only [List.take_replicate]
      congr 2
      omega

/-! ## Consequences used by several statements -/

theorem nextCalls_run_trace {T : Type} (cs : List (T × Bool × T)) :
    nextCalls ([Event.query] ++ cs.map Event.ofCall ++ [Event.close]) = cs := by
  rw [nextCalls_append, nextCalls_append, nextCalls_map_ofCall]
  simp [nextCalls]

theorem filter_isClose_run_trace {T : Type} (cs : List (T × Bool × T)) :
    ([Event.query] ++ cs.map Event.ofCall ++ [Event.close]).filter Event.isClose
      = [Event.close] := by
  rw [List.filter_append, List.filter_append, filter_isClose_map_ofCall]
  rfl

theorem GoSlice.Len_eq_length (d : GoSlice E) : d.Len = d.toList.length := by
  cases d <;> rfl

theorem GoSlice.cells_of_Cap_zero (d : GoSlice E) (h : d.Cap = 0) : d.cells = [] := by
  cases d with
  | nil => rfl
  | mk elems spare =>
    simp only [GoSlice.Cap] at h
    have h1 : elems = [] := List.length_eq_zero.mp (by omega)
    have h2 : spare = [] := List.length_eq_zero.mp (by omega)
    subst h1 h2
    rfl

/-- When `Next` overwrites its slot, the values left by the calls that
answered `true` do not depend on the slots handed in. -/
theorem calls_overwrite {T : Type} (next : σ → T → Bool × σ × T) (zero : T)
    (hov : OverwritesSlot next) :
    ∀ (n : Nat) (s : σ) (slots1 slots2 : List T), Yields next n s →
      ((calls next zero (n + 1) s slots1).take n).map (fun c => c.2.2)
        = ((calls next zero (n + 1) s slots2).take n).map (fun c => c.2.2) := by
  intro n
  induction n with
  | zero => intro s slots1 slots2 _; rfl
  | succ n ih =>
    intro s slots1 slots2 hy
    have ha := hy (slots1.headD zero)
    have hb := hy (slots2.headD zero)
    have hc := hov s (slots1.headD zero) (slots2.headD zero)
    rcases hx1 : next s (slots1.headD zero) with ⟨ok1, s1, out1⟩
    rcases hx2 : next s (slots2.headD zero) with ⟨ok2, s2, out2⟩
    rw [hx1] at ha hc
    rw [hx2] at hb hc
    simp only at ha hb hc
    obtain ⟨ha1, ha2⟩ := ha
    obtain ⟨hb1, _⟩ := hb
    obtain ⟨hc1, hc2⟩ := hc
    subst ha1 hb1 hc1
    have hout : out1 = out2 := hc2 rfl
    subst hout
    rw [calls_true next zero (n + 1) s s1 slots1 out1 hx1,
      calls_true next zero (n + 1) s s1 slots2 out1 hx2]
    simp only [List.take_succ_cons, List.map_cons]
    rw [ih s1 slots1.tail slots2.tail ha2]

/-! ## The loop of ExecuteSpatialQuery on a result set that stops -/

section SpatialLemmas

variable {T : Type}

end SpatialLemmas

theorem GetDocumentsLoop_trace (rt : Runtime E) (db : N1qlBucket Q σ E) :
    ∀ (fuel : Nat) (s : σ) (slicev : GoSlice E) (i : Nat) (tr : List (Event E))
      (o : Outcome (GoSlice E × Nat)) (tr1 : List (Event E)),
      GetDocumentsLoop rt db fuel s slicev i tr = some (o, tr1) →
      ∃ evs, tr1 = tr ++ evs ∧ evs.filter Event.isClose = [] := by
  intro fuel
  induction fuel with
  | zero =>
    intro s slicev i tr o tr1 h
    simp [GetDocumentsLoop] at h
  | succ fuel ih =>
    intro s slicev i tr o tr1 h
    by_cases hl : slicev.Len = i
    · rcases hx : db.Next s rt.zero with ⟨ok, s1, out⟩
      cases ok
      · rw [loop_fresh_false rt db fuel s s1 slicev i tr out hl hx] at h
        simp only [Option.some.injEq, Prod.mk.injEq] at h
        exact ⟨[.next rt.zero false out], h.2.symm, rfl⟩
      · rcases hs : (GoSlice.Append rt slicev out).Slice 0 (GoSlice.Append rt slicev out).Cap
          with msg | slicev2
        · simp only [GetDocumentsLoop, hl, if_true, hx, hs, Option.some.injEq,
            Prod.mk.injEq] at h
          exact ⟨[.next rt.zero true out], h.2.symm, rfl⟩
        · rw [loop_fresh_true rt db fuel s s1 slicev slicev2 i tr out hl hx hs] at h
          obtain ⟨evs, e1, e2⟩ := ih s1 slicev2 (i + 1) _ o tr1 h
          refine ⟨.next rt.zero true out :: evs, ?_, ?_⟩
          · rw [e1]; simp
          · simpa [Event.isClose] using e2
    · rcases hc : slicev.Index i with msg | cur
      · simp only [GetDocumentsLoop, hl, if_false, hc, Option.some.injEq, Prod.mk.injEq] at h
        exact ⟨[], by rw [← h.2]; simp, rfl⟩
      · rcases hx : db.Next s cur with ⟨ok, s1, out⟩
        cases ok
        · rw [loop_slot_false rt db fuel s s1 slicev i tr cur out hl hc hx] at h
          simp only [Option.some.injEq, Prod.mk.injEq] at h
          exact ⟨[.next cur false out], h.2.symm, rfl⟩
        · rw [loop_slot_true rt db fuel s s1 slicev i tr cur out hl hc hx] at h
          obtain ⟨evs, e1, e2⟩ := ih s1 _ (i + 1) _ o tr1 h
          refine ⟨.next cur true out :: evs, ?_, ?_⟩
          · rw [e1]; simp
          · simpa [Event.isClose] using e2

theorem GetDocuments_trace (rt : Runtime E) (db : N1qlBucket Q σ E) (fuel : Nat) (q : Q)
    (D : GoSlice E) (s0 : σ) (hq : db.ExecuteN1qlQuery q = .ok s0) (fin : Final E)
    (h : GetDocuments rt db fuel q (.ptr (.slice D)) = some fin) :
    ∃ evs, fin.trace = [.query] ++ evs ++ [.close] ∧ evs.filter Event.isClose = [] := by
  simp only [GetDocuments, GoValue.Kind, GoValue.Elem, ne_eq, not_true_eq_false, or_self,
    if_false, hq] at h
  rcases hs : D.Slice 0 D.Cap with msg | slicev
  · simp only [hs, Option.some.injEq] at h
    subst h
    exact ⟨[], rfl, rfl⟩
  · simp only [hs] at h
    rcases hloop : GetDocumentsLoop rt db fuel s0 slicev 0 [.query] with _ | ⟨o, tr1⟩
    · simp [hloop] at h
    · obtain ⟨evs, e1, e2⟩ := GetDocumentsLoop_trace rt db fuel s0 slicev 0 [.query] o tr1 hloop
      subst e1
      simp only [hloop] at h
      cases o with
      | panic msg =>
        simp only [Option.some.injEq] at h
        subst h
        exact ⟨evs, rfl, e2⟩
      | returned r =>
        obtain ⟨slicev1, i⟩ := r
        simp only at h
        rcases hs1 : slicev1.Slice 0 i with msg | d1
        · simp only [hs1, Option.some.injEq] at h
          subst h
          exact ⟨evs, rfl, e2⟩
        · simp only [hs1, Option.some.injEq] at h
          subst h
          exact ⟨evs, rfl, e2⟩

/-! ## Statements about GetDocuments -/

/-- C2: when the query issue fails with error `e`, `GetDocuments` returns `e`
wrapped with the tag of the issue step, the only library call made is the
query issue (so `Next` is never called), and the destination slice is the
same as before. -/
theorem GetDocuments_query_error (rt : Runtime E) (db : N1qlBucket Q σ E) (fuel : Nat)
    (q : Q) (D : GoSlice E) (e : GoError) (hq : db.ExecuteN1qlQuery q = .error e) :
    GetDocuments rt db fuel q (.ptr (.slice D))
      = some ⟨.returned (some ⟨e, "bucket.ExecuteN1q1Query"⟩), .ptr (.slice D), [.query]⟩ ∧
    ∀ fin, GetDocuments rt db fuel q (.ptr (.slice D)) = some fin →
      nextCalls fin.trace = [] ∧ fin.result = .ptr (.slice D) := by
  have h : GetDocuments rt db fuel q (.ptr (.slice D))
      = some ⟨.returned (some ⟨e, "bucket.ExecuteN1q1Query"⟩), .ptr (.slice D), [.query]⟩ := by
    simp only [GetDocuments, GoValue.Kind, GoValue.Elem, ne_eq, not_true_eq_false, or_self,
      if_false, hq, errorsWrap]
  refine ⟨h, ?_⟩
  intro fin hfin
  rw [h] at hfin
  cases hfin
  exact ⟨rfl, rfl⟩

/-- C3 (as amended): when the result set yields no row, `GetDocuments` returns
a nil error and leaves the destination with length 0; the destination is nil
afterwards exactly when it was nil before. -/
theorem GetDocuments_zero_rows (rt : Runtime E) (db : N1qlBucket Q σ E) (fuel : Nat)
    (q : Q) (D : GoSlice E) (s0 : σ)
    (hq : db.ExecuteN1qlQuery q = .ok s0) (hy : Yields db.Next 0 s0) (hf : 0 < fuel) :
    ∃ fin d1,
      GetDocuments rt db fuel q (.ptr (.slice D)) = some fin ∧
      fin.outcome = .returned none ∧
      fin.result = .ptr (.slice d1) ∧
      d1.Len = 0 ∧
      d1.isNil = D.isNil := by
  obtain ⟨d1, e1, e2, e3⟩ := GetDocuments_run rt db fuel q D s0 0 hq hy hf
  refine ⟨_, d1, e1, rfl, rfl, ?_, ?_⟩
  · rw [GoSlice.Len_eq_length, e2]
    simp
  · rw [e3]
    simp

/-- C4 (as amended): the `(i+1)`-th call of `Next` is pointed at cell `i` of
the backing array of the destination while `i` is below its capacity, and at a
zero value after that.  So two runs on the same result set from different
destinations (any elements, lengths and capacities) end with the same elements
when a row that decodes replaces the slot it is decoded into, and also, for
any `Next`, when both destinations have capacity 0. -/
theorem GetDocuments_contents_independent (rt : Runtime E) (db : N1qlBucket Q σ E)
    (fuel : Nat) (q : Q) (D1 D2 : GoSlice E) (s0 : σ) (n : Nat)
    (hq : db.ExecuteN1qlQuery q = .ok s0) (hy : Yields db.Next n s0) (hf : n < fuel)
    (h : OverwritesSlot db.Next ∨ (D1.Cap = 0 ∧ D2.Cap = 0)) :
    ∃ fin1 fin2 d1 d2,
      GetDocuments rt db fuel q (.ptr (.slice D1)) = some fin1 ∧
      GetDocuments rt db fuel q (.ptr (.slice D2)) = some fin2 ∧
      fin1.result = .ptr (.slice d1) ∧
      fin2.result = .ptr (.slice d2) ∧
      (nextCalls fin1.trace).map (fun c => c.1)
        = (D1.cells ++ List.replicate (n + 1) rt.zero).take (n + 1) ∧
      (nextCalls fin2.trace).map (fun c => c.1)
        = (D2.cells ++ List.replicate (n + 1) rt.zero).take (n + 1) ∧
      d1.toList = d2.toList := by
  obtain ⟨d1, a1, a2, _⟩ := GetDocuments_run rt db fuel q D1 s0 n hq hy hf
  obtain ⟨d2, b1, b2, _⟩ := GetDocuments_run rt db fuel q D2 s0 n hq hy hf
  refine ⟨_, _, d1, d2, a1, b1, rfl, rfl, ?_, ?_, ?_⟩
  · simp only [nextCalls_run_trace]
    exact calls_args db.Next rt.zero n s0 D1.cells hy
  · simp only [nextCalls_run_trace]
    exact calls_args db.Next rt.zero n s0 D2.cells hy
  · rw [a2, b2]
    rcases h with hov | ⟨h1, h2⟩
    · exact calls_overwrite db.Next rt.zero hov n s0 D1.cells D2.cells hy
    · rw [GoSlice.cells_of_Cap_zero D1 h1, GoSlice.cells_of_Cap_zero D2 h2]

/-- C6: in a call of `GetDocuments` that obtained a result set, whatever the
result set answers and however the call ends, `Close` is called exactly once
and it is the last library call, after every `Next`; and when the result set
stops after `n` rows, for exhaustion or for a decode failure, the call does
come back, after `n + 1` calls of `Next`. -/
theorem GetDocuments_closes_once (rt : Runtime E) (db : N1qlBucket Q σ E)
    (fuel : Nat) (q : Q) (D : GoSlice E) (s0 : σ)
    (hq : db.ExecuteN1qlQuery q = .ok s0) :
    (∀ fin, GetDocuments rt db fuel q (.ptr (.slice D)) = some fin →
      (fin.trace.filter Event.isClose).length = 1 ∧
      fin.trace.getLast? = some .close) ∧
    (∀ n, Yields db.Next n s0 → n < fuel →
      ∃ fin, GetDocuments rt db fuel q (.ptr (.slice D)) = some fin ∧
        fin.outcome = .returned none ∧
        (nextCalls fin.trace).length = n + 1) := by
  constructor
  · intro fin h
    obtain ⟨evs, e1, e2⟩ := GetDocuments_trace rt db fuel q D s0 hq fin h
    rw [e1]
    refine ⟨?_, List.getLast?_concat _⟩
    rw [List.filter_append, List.filter_append, e2]
    rfl
  · intro n hy hf
    obtain ⟨d1, e1, _, _⟩ := GetDocuments_run rt db fuel q D s0 n hq hy hf
    refine ⟨_, e1, rfl, ?_⟩
    simp only [nextCalls_run_trace]
    exact calls_length db.Next rt.zero n s0 D.cells hy

/-- C7: for every `result` that is not a pointer to a slice, `GetDocuments`
panics, whatever the bucket and the result set would answer: no library call
is made (no query issue, no `Next`, no `Close`) and `result` is as before. -/
theorem GetDocuments_panics_unless_slice_pointer (rt : Runtime E) (db : N1qlBucket Q σ E)
    (fuel : Nat) (q : Q) (result : GoValue E) (h : ¬ ∃ D, result = .ptr (.slice D)) :
    GetDocuments rt db fuel q result
      = some ⟨.panic "result argument must be a slice address", result, []⟩ := by
  cases result with
  | ptr t =>
    cases t with
    | slice D => exact absurd ⟨D, rfl⟩ h
    | _ => simp [GetDocuments, GoValue.Kind, GoValue.Elem]
  | _ => simp [GetDocuments, GoValue.Kind, GoValue.Elem]

/-! ## Statements about GetDocument, DeleteDocument and ExecuteSpatialQuery -/

/-- C8 (the code at the failing input): on a bucket that holds a document
under the key `sg:005050`, `DeleteDocument` with that key returns a nil error
and the bucket still holds the document. -/
theorem DeleteDocument_keeps_the_document :
    (DeleteDocument [("sg:005050", "store 005050"), ("sg:005051", "store 005051")]
        "sg:005050").2 = none ∧
    (DeleteDocument [("sg:005050", "store 005050"), ("sg:005051", "store 005051")]
        "sg:005050").1.lookup "sg:005050" = some "store 005050" := by
  exact ⟨rfl, by decide⟩

/-- C9: on a pointer `result`, `GetDocument` calls `bucket.Get` once and
returns; it returns a non-nil error exactly when `bucket.Get` gave an error
that has no `KeyNotFound` method or whose `KeyNotFound` answers false, and
that error is the cause wrapped with the tag `bucket.Get`; it returns nil both
when `bucket.Get` succeeded and when it gave a key-not-found error.  On a
`result` that is no pointer it panics without calling `bucket.Get`. -/
theorem GetDocument_error_iff (db : KVBucket E) (key : String) (result : GoValue E) :
    (result.Kind = Kind.Ptr →
      (GetDocument db key result).trace = [.get key] ∧
      (∃ r, (GetDocument db key result).outcome = .returned r) ∧
      (∀ w, (GetDocument db key result).outcome = .returned (some w) ↔
        ∃ e, (db.Get key result).2 = some e ∧
          (e.keyNotFound = none ∨ e.keyNotFound = some false) ∧ w = ⟨e, "bucket.Get"⟩) ∧
      ((GetDocument db key result).outcome = .returned none ↔
        ((db.Get key result).2 = none ∨
          ∃ e, (db.Get key result).2 = some e ∧ e.keyNotFound = some true))) ∧
    (result.Kind ≠ Kind.Ptr →
      GetDocument db key result
        = ⟨.panic "result argument must be an address", result, []⟩) := by
  constructor
  · intro hk
    rcases hget : db.Get key result with ⟨r1, _ | ⟨text, _ | b⟩⟩
    · simp [GetDocument, hk, hget]
    · simp [GetDocument, hk, hget, gocbKeyNotFound, errorsWrap]
      intro w
      constructor
      · intro h; exact h.symm
      · intro h; exact h.symm
    · cases b
      · simp [GetDocument, hk, hget, gocbKeyNotFound, errorsWrap]
        intro w
        constructor
        · intro h; exact h.symm
        · intro h; exact h.symm
      · simp [GetDocument, hk, hget, gocbKeyNotFound, errorsWrap]
  · intro hk
    simp [GetDocument, hk]

theorem scriptBucket_yields_two :
    Yields scriptBucket.Next 2 [some 4, some 5] :=
  fun _ => ⟨rfl, fun _ => ⟨rfl, fun _ => rfl⟩⟩

theorem scriptBucket_yields_nothing : Yields scriptBucket.Next 0 [] :=
  fun _ => rfl

theorem scriptBucket_yields_ten_twenty :
    Yields scriptBucket.Next 2 [some 10, some 20] :=
  fun _ => ⟨rfl, fun _ => ⟨rfl, fun _ => rfl⟩⟩

/-- The scripted result set replaces the slot by a row that decodes, and it
leaves the slot alone when it answers `false`. -/
theorem scriptBucket_overwrites : OverwritesSlot scriptBucket.Next := by
  intro s e1 e2
  rcases s with _ | ⟨_ | r, rest⟩
  · exact ⟨rfl, fun h => by cases h⟩
  · exact ⟨rfl, fun h => by cases h⟩
  · exact ⟨rfl, fun _ => rfl⟩

theorem mergeBucket_yields_one : Yields mergeBucket.Next 1 [5] :=
  fun _ => ⟨rfl, fun _ => rfl⟩

/-- C2 at a query whose issue fails with a network error. -/
theorem GetDocuments_query_error_witness :
    scriptBucket.ExecuteN1qlQuery (.error ⟨"network failure", none⟩)
      = .error ⟨"network failure", none⟩ ∧
    GetDocuments natRuntime scriptBucket 0 (.error ⟨"network failure", none⟩)
        (.ptr (.slice (.mk [1, 2] [3])))
      = some ⟨.returned (some ⟨⟨"network failure", none⟩, "bucket.ExecuteN1q1Query"⟩),
          .ptr (.slice (.mk [1, 2] [3])), [.query]⟩ :=
  ⟨rfl, (GetDocuments_query_error natRuntime scriptBucket 0 (.error ⟨"network failure", none⟩)
    (.mk [1, 2] [3]) ⟨"network failure", none⟩ rfl).1⟩

/-- C3 as stated fails: a nil destination and a result set without rows leave
the destination nil. -/
theorem GetDocuments_nil_stays_nil :
    GetDocuments natRuntime scriptBucket 1 (.ok []) (.ptr (.slice .nil))
      = some ⟨.returned none, .ptr (.slice .nil), [.query, .next 0 false 0, .close]⟩ ∧
    (GoSlice.nil : GoSlice Nat).isNil = true :=
  ⟨rfl, rfl⟩

/-- C3 as amended, at a non-nil destination with two elements. -/
theorem GetDocuments_zero_rows_witness :
    scriptBucket.ExecuteN1qlQuery (.ok []) = .ok [] ∧
    Yields scriptBucket.Next 0 [] ∧
    0 < 1 ∧
    ∃ fin d1,
      GetDocuments natRuntime scriptBucket 1 (.ok []) (.ptr (.slice (.mk [8, 9] []))) = some fin ∧
      fin.outcome = .returned none ∧
      fin.result = .ptr (.slice d1) ∧
      d1.Len = 0 ∧
      d1.isNil = (GoSlice.mk [8, 9] []).isNil :=
  ⟨rfl, scriptBucket_yields_nothing, by decide,
    GetDocuments_zero_rows natRuntime scriptBucket 1 (.ok []) (.mk [8, 9] []) []
      rfl scriptBucket_yields_nothing (by decide)⟩

/-- C4 as stated fails: with a `Next` that merges the row into its slot, the
one row 5 is decoded into the existing cell `(0, 7)` of the second
destination, not into a zero value, and the two runs end differently. -/
theorem GetDocuments_prior_contents_show_through :
    GetDocuments pairRuntime mergeBucket 2 [5] (.ptr (.slice (.mk [] [])))
      = some ⟨.returned none, .ptr (.slice (.mk [(5, 0)] [])),
          [.query, .next (0, 0) true (5, 0), .next (0, 0) false (0, 0), .close]⟩ ∧
    GetDocuments pairRuntime mergeBucket 2 [5] (.ptr (.slice (.mk [(0, 7)] [])))
      = some ⟨.returned none, .ptr (.slice (.mk [(5, 7)] [])),
          [.query, .next (0, 7) true (5, 7), .next (0, 0) false (0, 0), .close]⟩ ∧
    (GoSlice.mk [(5, 0)] [] : GoSlice (Nat × Nat)).toList ≠ (GoSlice.mk [(5, 7)] []).toList :=
  ⟨rfl, rfl, by decide⟩

/-- C4 as amended, at a result set that overwrites its slot (and leaves it
alone on a `false` answer) with a destination of length 1 and capacity 2 and a
destination of length 3: both end as the rows 10, 20.  And at the merging
result set with two destinations of capacity 0, one of them nil. -/
theorem GetDocuments_contents_independent_witness :
    (scriptBucket.ExecuteN1qlQuery (.ok [some 10, some 20]) = .ok [some 10, some 20] ∧
      Yields scriptBucket.Next 2 [some 10, some 20] ∧
      2 < 3 ∧
      OverwritesSlot scriptBucket.Next ∧
      GetDocuments natRuntime scriptBucket 3 (.ok [some 10, some 20])
          (.ptr (.slice (.mk [1] [2])))
        = some ⟨.returned none, .ptr (.slice (.mk [10, 20] [])),
            [.query, .next 1 true 10, .next 2 true 20, .next 0 false 0, .close]⟩ ∧
      GetDocuments natRuntime scriptBucket 3 (.ok [some 10, some 20])
          (.ptr (.slice (.mk [7, 8, 9] [])))
        = some ⟨.returned none, .ptr (.slice (.mk [10, 20] [9])),
            [.query, .next 7 true 10, .next 8 true 20, .next 9 false 9, .close]⟩ ∧
      ∃ fin1 fin2 d1 d2,
        GetDocuments natRuntime scriptBucket 3 (.ok [some 10, some 20])
          (.ptr (.slice (.mk [1] [2]))) = some fin1 ∧
        GetDocuments natRuntime scriptBucket 3 (.ok [some 10, some 20])
          (.ptr (.slice (.mk [7, 8, 9] []))) = some fin2 ∧
        fin1.result = .ptr (.slice d1) ∧
        fin2.result = .ptr (.slice d2) ∧
        (nextCalls fin1.trace).map (fun c => c.1)
          = ((GoSlice.mk [1] [2]).cells ++ List.replicate (2 + 1) natRuntime.zero).take (2 + 1) ∧
        (nextCalls fin2.trace).map (fun c => c.1)
          = ((GoSlice.mk [7, 8, 9] []).cells
              ++ List.replicate (2 + 1) natRuntime.zero).take (2 + 1) ∧
        d1.toList = d2.toList) ∧
    (mergeBucket.ExecuteN1qlQuery [5] = .ok [5] ∧
      Yields mergeBucket.Next 1 [5] ∧
      1 < 2 ∧
      (GoSlice.nil : GoSlice (Nat × Nat)).Cap = 0 ∧
      (GoSlice.mk [] [] : GoSlice (Nat × Nat)).Cap = 0 ∧
      ∃ fin1 fin2 d1 d2,
        GetDocuments pairRuntime mergeBucket 2 [5] (.ptr (.slice .nil)) = some fin1 ∧
        GetDocuments pairRuntime mergeBucket 2 [5] (.ptr (.slice (.mk [] []))) = some fin2 ∧
        fin1.result = .ptr (.slice d1) ∧
        fin2.result = .ptr (.slice d2) ∧
        (nextCalls fin1.trace).map (fun c => c.1)
          = ((GoSlice.nil : GoSlice (Nat × Nat)).cells
              ++ List.replicate (1 + 1) pairRuntime.zero).take (1 + 1) ∧
        (nextCalls fin2.trace).map (fun c => c.1)
          = ((GoSlice.mk [] [] : GoSlice (Nat × Nat)).cells
              ++ List.replicate (1 + 1) pairRuntime.zero).take (1 + 1) ∧
        d1.toList = d2.toList) :=
  ⟨⟨rfl, scriptBucket_yields_ten_twenty, by decide, scriptBucket_overwrites, rfl, rfl,
      GetDocuments_contents_independent natRuntime scriptBucket 3 (.ok [some 10, some 20])
        (.mk [1] [2]) (.mk [7, 8, 9] []) [some 10, some 20] 2 rfl
        scriptBucket_yields_ten_twenty (by decide) (Or.inl scriptBucket_overwrites)⟩,
    ⟨rfl, mergeBucket_yields_one, by decide, rfl, rfl,
      GetDocuments_contents_independent pairRuntime mergeBucket 2 [5] .nil (.mk [] []) [5] 1
        rfl mergeBucket_yields_one (by decide) (Or.inr ⟨rfl, rfl⟩)⟩⟩

/-- C6 at rows 4, 5 and a destination with spare capacity. -/
theorem GetDocuments_closes_once_witness :
    scriptBucket.ExecuteN1qlQuery (.ok [some 4, some 5]) = .ok [some 4, some 5] ∧
    Yields scriptBucket.Next 2 [some 4, some 5] ∧
    2 < 3 ∧
    GetDocuments natRuntime scriptBucket 3 (.ok [some 4, some 5])
        (.ptr (.slice (.mk [] [6, 6, 6])))
      = some ⟨.returned none, .ptr (.slice (.mk [4, 5] [6])),
          [.query, .next 6 true 4, .next 6 true 5, .next 6 false 6, .close]⟩ ∧
    ((Final.trace ⟨.returned none, .ptr (.slice (.mk [4, 5] [6])),
          [.query, .next 6 true 4, .next 6 true 5, .next 6 false 6, .close]⟩).filter
        Event.isClose).length = 1 ∧
    ∃ fin,
      GetDocuments natRuntime scriptBucket 3 (.ok [some 4, some 5])
        (.ptr (.slice (.mk [] [6, 6, 6]))) = some fin ∧
      fin.outcome = .returned none ∧
      (nextCalls fin.trace).length = 2 + 1 :=
  ⟨rfl, scriptBucket_yields_two, by decide, rfl,
    ((GetDocuments_closes_once natRuntime scriptBucket 3 (.ok [some 4, some 5])
      (.mk [] [6, 6, 6]) [some 4, some 5] rfl).1 _ rfl).1,
    (GetDocuments_closes_once natRuntime scriptBucket 3 (.ok [some 4, some 5])
      (.mk [] [6, 6, 6]) [some 4, some 5] rfl).2 2 scriptBucket_yields_two (by decide)⟩

/-- C7 at a pointer to a struct. -/
theorem GetDocuments_panics_unless_slice_pointer_witness :
    (¬ ∃ D : GoSlice Nat, GoValue.ptr (.strct [("storeNumber", "005050")]) = .ptr (.slice D)) ∧
    GetDocuments natRuntime scriptBucket 5 (.ok [some 1])
        (.ptr (.strct [("storeNumber", "005050")]))
      = some ⟨.panic "result argument must be a slice address",
          .ptr (.strct [("storeNumber", "005050")]), []⟩ :=
  ⟨(fun ⟨_, h⟩ => by cases h),
    GetDocuments_panics_unless_slice_pointer natRuntime scriptBucket 5 (.ok [some 1])
      (.ptr (.strct [("storeNumber", "005050")])) (fun ⟨_, h⟩ => by cases h)⟩

/-- C9 at a missing key (nil is returned), at a bucket that is down (the
error is wrapped) and at a `result` that is no pointer (panic). -/
theorem GetDocument_error_iff_witness :
    (GoValue.ptr (.int 0) : GoValue Nat).Kind = Kind.Ptr ∧
    (GoValue.int 0 : GoValue Nat).Kind ≠ Kind.Ptr ∧
    (GetDocument sampleKV "sg:000000" (.ptr (.int 0))).outcome = .returned none ∧
    (GetDocument sampleKV "down" (.ptr (.int 0))).outcome
      = .returned (some ⟨⟨"network failure", none⟩, "bucket.Get"⟩) ∧
    GetDocument sampleKV "sg:005050" (.int 0)
      = ⟨.panic "result argument must be an address", .int 0, []⟩ :=
  ⟨rfl, by decide,
    ((GetDocument_error_iff sampleKV "sg:000000" (.ptr (.int 0))).1 rfl).2.2.2.mpr
      (Or.inr ⟨⟨"key not found", some true⟩, rfl, rfl⟩),
    (((GetDocument_error_iff sampleKV "down" (.ptr (.int 0))).1 rfl).2.2.1 _).mpr
      ⟨⟨"network failure", none⟩, rfl, Or.inl rfl, rfl⟩,
    (GetDocument_error_iff sampleKV "sg:005050" (.int 0)).2 (by decide)⟩

end Couchstore
